import Mathlib

/-!
Verification development for the HiFiC model orchestration code
(hific/model.py): a shallow embedding of the loss composition and
training-step logic, with the external collaborator networks
(Encoder, Generator, Hyperprior, Discriminator, perceptual metric,
rate weighting, adversarial loss) abstracted as function-valued fields
of the model record, exactly as the source consumes them.

Conventions of the embedding:
  * an image tensor of shape (N, C, H, W) is a batch (a list) of
    images, each image a list of C channels, each channel a list of H
    rows of W rational values;
  * autograd is modelled by a list of gradient sources attached to each
    tensor: an operation on tensors passes the sources of its inputs
    through to its output, and Tensor.detach drops them, which is the
    stop-gradient boundary of torch.Tensor.detach;
  * scalar losses are rationals; torch.mean is sum divided by length;
  * the mutable attributes of the HificModel object (step_counter and
    the two loss storage dictionaries) form an explicit State record
    threaded through the functions that mutate it; the writeout
    attribute, which forward writes and store_loss reads back within
    the same call, is passed as a parameter.
-/

namespace Hific

/-- The parameter groups a gradient can flow back into. -/
inductive Src where
  | encoder
  | generator
  | hyperprior
  | discriminator
deriving DecidableEq

/-- One image: channels, then rows, then pixel values. -/
abbrev Img := List (List (List ℚ))

/-- A batched (N, C, H, W) tensor with its autograd sources. -/
structure Tensor where
  batch : List Img
  deps : List Src
deriving DecidableEq

/-- torch.Tensor.detach: same values, cut off from the gradient graph. -/
def Tensor.detach (t : Tensor) : Tensor := { t with deps := [] }

/-- torch.cat along the batch axis (dim = 0). -/
def catB (a b : Tensor) : Tensor := ⟨a.batch ++ b.batch, a.deps ++ b.deps⟩

/-- torch.repeat_interleave(·, 2, dim=0): each batch entry duplicated in place. -/
def repeatInterleave2 (t : Tensor) : Tensor :=
  ⟨t.batch.flatMap (fun s => [s, s]), t.deps⟩

/-- An elementwise map over every pixel of an image. -/
def Img.emap (f : ℚ → ℚ) (im : Img) : Img :=
  im.map (fun ch => ch.map (fun row => row.map f))

/-- A differentiable elementwise tensor operation: values mapped, sources kept. -/
def Tensor.emap (f : ℚ → ℚ) (t : Tensor) : Tensor :=
  ⟨t.batch.map (Img.emap f), t.deps⟩

/-- All pixel values of a tensor, flattened in order. -/
def Tensor.flattenVals (t : Tensor) : List ℚ :=
  t.batch.flatMap (fun im => im.flatMap (fun ch => ch.flatMap (fun row => row)))

/-- Mean of a list of rationals (torch.mean); 0 on the empty list. -/
def qmean (l : List ℚ) : ℚ := l.sum / l.length

/-- A squeezed per-sample scalar tensor (the discriminator's outputs after
torch.squeeze), with its autograd sources. -/
structure STensor where
  batch : List ℚ
  deps : List Src
deriving DecidableEq

/-- Mean of the per-sample scalars. -/
def STensor.mean (s : STensor) : ℚ := qmean s.batch

/-- torch.chunk(·, 2, dim=0): the two halves of the batch. -/
def chunk2 (s : STensor) : STensor × STensor :=
  (⟨s.batch.take ((s.batch.length + 1) / 2), s.deps⟩,
   ⟨s.batch.drop ((s.batch.length + 1) / 2), s.deps⟩)

/-- The record the Hyperprior collaborator returns (hyperinfo in the source). -/
structure HyperInfo where
  decoded : Tensor
  total_nbpp : ℚ
  total_qbpp : ℚ
  latent_nbpp : ℚ
  latent_qbpp : ℚ
  hyperlatent_nbpp : ℚ
  hyperlatent_qbpp : ℚ

/-- The Intermediates named tuple of model.py. -/
structure Intermediates where
  input_image : Tensor
  reconstruction : Tensor
  latents_quantized : Tensor
  n_bpp : ℚ
  q_bpp : ℚ
deriving DecidableEq

/-- The disc_out named tuple of model.py. -/
structure Disc_out where
  D_real : STensor
  D_gen : STensor
  D_real_logits : STensor
  D_gen_logits : STensor

/-- default_config.ModelModes. Modelled from the spec only in so far as
default_config.py is not among the staged sources; the spec fixes the
enumeration training / validation / evaluation. -/
inductive ModelMode where
  | training
  | validation
  | evaluation
deriving DecidableEq

/-- default_config.ModelTypes (compression / compression_gan), as above. -/
inductive ModelType where
  | compression
  | compression_gan
deriving DecidableEq

/-- The mode argument of losses.gan_loss. -/
inductive GanMode where
  | discriminator_loss
  | generator_loss
deriving DecidableEq

/-- The constructed HificModel: its configuration together with the external
collaborators it was built with, each consumed only through the call shape
model.py uses. `training` is the nn.Module training flag. -/
structure Model where
  model_mode : ModelMode
  model_type : ModelType
  log_interval : ℕ
  training : Bool
  k_M : ℚ
  k_P : ℚ
  beta : ℚ
  n_downsampling_layers : ℕ
  Encoder : Tensor → Tensor
  Generator : Tensor → Tensor
  Hyperprior : Tensor → List ℕ → HyperInfo
  discScore : Img → Img → ℚ
  discLogit : Img → Img → ℚ
  perceptualFn : Img → Img → ℚ
  weighted_rate_loss : ℚ → ℚ → ℕ → ℚ × ℚ
  ganLoss : Disc_out → GanMode → ℚ

/-- self.use_discriminator, as computed in __init__ (GAN type requested and
the mode is not evaluation). -/
def use_discriminator (M : Model) : Bool :=
  decide (M.model_type = ModelType.compression_gan) &&
    decide (M.model_mode ≠ ModelMode.evaluation)

/-- The keys model.py stores diagnostics under. -/
inductive LKey where
  | rate_penalty
  | distortion
  | perceptual
  | n_rate
  | q_rate
  | n_rate_latent
  | q_rate_latent
  | n_rate_hyperlatent
  | q_rate_hyperlatent
  | weighted_rate
  | weighted_distortion
  | weighted_perceptual
  | weighted_R_D
  | weighted_compression_loss_sans_G
  | D_gen
  | D_real
  | disc_loss
  | gen_loss
  | weighted_gen_loss
  | weighted_compression_loss
deriving DecidableEq

/-- The mutable attributes of the HificModel instance: the step counter and
the two append-only loss storage dictionaries. -/
structure State where
  step_counter : ℕ
  storage_train : LKey → List ℚ
  storage_test : LKey → List ℚ

/-- defaultdict(list) append: storage[key].append(loss). -/
def appendLoss (s : LKey → List ℚ) (key : LKey) (v : ℚ) : LKey → List ℚ :=
  fun k => if k = key then s k ++ [v] else s k

/-- HificModel.store_loss: pick the train or test storage by the training
flag, and append only when the caller opted in with writeout. -/
def store_loss (M : Model) (writeout : Bool) (st : State) (key : LKey) (loss : ℚ) :
    State :=
  if M.training = true then
    if writeout = true then
      { st with storage_train := appendLoss st.storage_train key loss }
    else st
  else
    if writeout = true then
      { st with storage_test := appendLoss st.storage_test key loss }
    else st

/-- A run of sequential store_loss calls, as the bookkeeping blocks make. -/
def storeAll (M : Model) (writeout : Bool) (st : State) :
    List (LKey × ℚ) → State
  | [] => st
  | p :: ps => storeAll M writeout (store_loss M writeout st p.1 p.2) ps

/-- The C of x.size()[1:]: channels of the first batch entry. -/
def tDimC (t : Tensor) : ℕ := (t.batch.headD []).length

/-- The H of x.size()[1:]: rows of the first channel of the first entry. -/
def tDimH (t : Tensor) : ℕ := ((t.batch.headD []).headD []).length

/-- The W of x.size()[1:]: width of the first row of the first entry. -/
def tDimW (t : Tensor) : ℕ := (((t.batch.headD []).headD []).headD []).length

/-- The smallest multiple of f that is at least n (n itself when f = 0). -/
def padTarget (n f : ℕ) : ℕ := if f = 0 then n else f * ((n + f - 1) / f)

/-- One row padded on the right to width w. -/
def padRowTo (w : ℕ) (row : List ℚ) : List ℚ :=
  row ++ List.replicate (w - row.length) 0

/-- One channel padded to h rows of width w. -/
def padChTo (h w : ℕ) (ch : List (List ℚ)) : List (List ℚ) :=
  let rows := ch.map (padRowTo w)
  rows ++ List.replicate (h - rows.length) (List.replicate w 0)

/-- Modelled from the spec: helpers.pad_factor (hific/utils/helpers.py is not
among the staged sources). Pads the spatial dimensions H and W of the input
up to the next multiple of factor; values to the original extent are
unchanged (the claims checked here concern only the shapes). -/
def pad_factor (t : Tensor) (H W factor : ℕ) : Tensor :=
  ⟨t.batch.map (fun im => im.map (padChTo (padTarget H factor) (padTarget W factor))),
   t.deps⟩

/-- reconstruction[:, :, :H, :W]: crop back to the first H rows and W columns. -/
def cropHW (t : Tensor) (H W : ℕ) : Tensor :=
  ⟨t.batch.map (fun im => im.map (fun ch => (ch.take H).map (fun row => row.take W))),
   t.deps⟩

/-- HificModel.compression_forward: encoder, hyperprior and generator pass,
with the spatial pad before encoding and the crop after decoding applied
exactly when the mode is validation and the module is not in its training
sub-mode, as in the source. This definition carries the data flow of those
lines only; the pad branch additionally evaluates the bare name logger
(model.py line 116), which is unbound when the module is imported, and
compression_forward_run below models that executed behaviour. -/
def compression_forward (M : Model) (x : Tensor) : Intermediates × HyperInfo :=
  let H := tDimH x
  let W := tDimW x
  let x1 :=
    if M.model_mode = ModelMode.validation ∧ M.training = false then
      pad_factor x H W (2 ^ M.n_downsampling_layers)
    else x
  let y := M.Encoder x1
  let hyperinfo := M.Hyperprior y [W]
  let latents_quantized := hyperinfo.decoded
  let reconstruction := M.Generator y
  let reconstruction1 :=
    if M.model_mode = ModelMode.validation ∧ M.training = false then
      cropHW reconstruction H W
    else reconstruction
  (⟨x1, reconstruction1, latents_quantized, hyperinfo.total_nbpp, hyperinfo.total_qbpp⟩,
   hyperinfo)

/-- compression_forward as the imported module actually executes it: before
any padding, the validation/non-training branch runs logger.info(...) at
model.py line 116 with the bare name logger, which is assigned only inside
the main-script block (line 281) and is therefore unbound whenever
hific.model is imported — the only way this branch is reached — so the call
raises NameError there; every other path returns compression_forward's
result. -/
def compression_forward_run (M : Model) (x : Tensor) :
    Except String (Intermediates × HyperInfo) :=
  if M.model_mode = ModelMode.validation ∧ M.training = false then
    Except.error "NameError: name 'logger' is not defined"
  else Except.ok (compression_forward M x)

/-- The x_gen of discriminator_forward after the alternation branch: detached
from the gradient graph exactly when generator_train is false. -/
def disc_x_gen (im : Intermediates) (generator_train : Bool) : Tensor :=
  if generator_train = false then im.reconstruction.detach else im.reconstruction

/-- D_in of discriminator_forward: torch.cat([x_real, x_gen], dim=0). -/
def disc_D_in (im : Intermediates) (generator_train : Bool) : Tensor :=
  catB im.input_image (disc_x_gen im generator_train)

/-- The conditioning context of discriminator_forward:
torch.repeat_interleave(latents_quantized.detach(), 2, dim=0). -/
def disc_context (im : Intermediates) : Tensor :=
  repeatInterleave2 im.latents_quantized.detach

/-- One discriminator invocation: the per-sample score applied position by
position to the batch and its context (the collaborator contract: output
batch-aligned with the input images), the output depending on the inputs'
gradient sources and on the discriminator parameters. -/
def applyDisc (f : Img → Img → ℚ) (din ctx : Tensor) : STensor :=
  ⟨(din.batch.zip ctx.batch).map (fun p => f p.1 p.2),
   din.deps ++ ctx.deps ++ [Src.discriminator]⟩

/-- HificModel.discriminator_forward. -/
def discriminator_forward (M : Model) (im : Intermediates) (generator_train : Bool) :
    Disc_out :=
  let D_in := disc_D_in im generator_train
  let latents := disc_context im
  let D_out := applyDisc M.discScore D_in latents
  let D_out_logits := applyDisc M.discLogit D_in latents
  let real_gen := chunk2 D_out
  let real_gen_logits := chunk2 D_out_logits
  ⟨real_gen.1, real_gen.2, real_gen_logits.1, real_gen_logits.2⟩

/-- HificModel.distortion_loss: mean squared error in [0, 255] space. -/
def distortion_loss (x_gen x_real : Tensor) : ℚ :=
  let sq_err := List.zipWith (fun u v => (u - v) ^ 2)
    ((x_gen.emap (fun v => v * 255)).flattenVals)
    ((x_real.emap (fun v => v * 255)).flattenVals)
  qmean sq_err

/-- HificModel.perceptual_loss_wrapper: mean of the per-sample perceptual
distances the external adapter returns. -/
def perceptual_loss_wrapper (M : Model) (x_gen x_real : Tensor) : ℚ :=
  qmean ((x_gen.batch.zip x_real.batch).map (fun p => M.perceptualFn p.1 p.2))

/-- The key-value pairs of compression_loss's bookkeeping block, in the
order the source stores them; step is the step counter current at the call. -/
def compression_diag (M : Model) (step : ℕ) (im : Intermediates) (hy : HyperInfo) :
    List (LKey × ℚ) :=
  let dloss := distortion_loss im.reconstruction im.input_image
  let ploss := perceptual_loss_wrapper M im.reconstruction im.input_image
  let wr := M.weighted_rate_loss im.n_bpp im.q_bpp step
  [(LKey.rate_penalty, wr.2),
   (LKey.distortion, dloss),
   (LKey.perceptual, ploss),
   (LKey.n_rate, im.n_bpp),
   (LKey.q_rate, im.q_bpp),
   (LKey.n_rate_latent, hy.latent_nbpp),
   (LKey.q_rate_latent, hy.latent_qbpp),
   (LKey.n_rate_hyperlatent, hy.hyperlatent_nbpp),
   (LKey.q_rate_hyperlatent, hy.hyperlatent_qbpp),
   (LKey.weighted_rate, wr.1),
   (LKey.weighted_distortion, M.k_M * dloss),
   (LKey.weighted_perceptual, M.k_P * ploss),
   (LKey.weighted_R_D, wr.1 + M.k_M * dloss),
   (LKey.weighted_compression_loss_sans_G, wr.1 + M.k_M * dloss + M.k_P * ploss)]

/-- HificModel.compression_loss: the weighted rate-distortion-perceptual
total, with the periodic bookkeeping appends. Returns the scalar loss and
the state after the appends. -/
def compression_loss (M : Model) (writeout : Bool) (st : State)
    (im : Intermediates) (hy : HyperInfo) : ℚ × State :=
  let x_real := im.input_image
  let x_gen := im.reconstruction
  let dloss := distortion_loss x_gen x_real
  let ploss := perceptual_loss_wrapper M x_gen x_real
  let weighted_distortion := M.k_M * dloss
  let weighted_perceptual := M.k_P * ploss
  let wr := M.weighted_rate_loss im.n_bpp im.q_bpp st.step_counter
  let weighted_rate := wr.1
  let weighted_R_D_loss := weighted_rate + weighted_distortion
  let weighted_compression_loss := weighted_R_D_loss + weighted_perceptual
  let st1 :=
    if st.step_counter % M.log_interval = 1 then
      storeAll M writeout st (compression_diag M st.step_counter im hy)
    else st
  (weighted_compression_loss, st1)

/-- The key-value pairs of GAN_loss's bookkeeping block, in source order. -/
def gan_diag (M : Model) (im : Intermediates) (generator_train : Bool) :
    List (LKey × ℚ) :=
  let disc_out := discriminator_forward M im generator_train
  let D_loss := M.ganLoss disc_out GanMode.discriminator_loss
  let G_loss := M.ganLoss disc_out GanMode.generator_loss
  [(LKey.D_gen, disc_out.D_gen.mean),
   (LKey.D_real, disc_out.D_real.mean),
   (LKey.disc_loss, D_loss),
   (LKey.gen_loss, G_loss),
   (LKey.weighted_gen_loss, M.beta * G_loss)]

/-- HificModel.GAN_loss: one discriminator forward pass, both adversarial
losses from its output, and the periodic bookkeeping appends. -/
def GAN_loss (M : Model) (writeout : Bool) (st : State) (im : Intermediates)
    (generator_train : Bool) : ℚ × ℚ × State :=
  let disc_out := discriminator_forward M im generator_train
  let D_loss := M.ganLoss disc_out GanMode.discriminator_loss
  let G_loss := M.ganLoss disc_out GanMode.generator_loss
  let st1 :=
    if st.step_counter % M.log_interval = 1 then
      storeAll M writeout st (gan_diag M im generator_train)
    else st
  (D_loss, G_loss, st1)

/-- The loss dictionary forward returns in training and validation modes. -/
structure Losses where
  compression : ℚ
  disc : Option ℚ
deriving DecidableEq

/-- What HificModel.forward returns: the evaluation short-circuit pair, or
the loss dictionary, with the intermediates when requested. -/
inductive FwdOut where
  | eval (reconstruction : Tensor) (q_bpp : ℚ)
  | losses (l : Losses)
  | lossesWithInter (l : Losses) (im : Intermediates)
deriving DecidableEq

/-- The loss dictionary carried by a forward result, when there is one. -/
def FwdOut.lossesOf : FwdOut → Option Losses
  | .eval _ _ => none
  | .losses l => some l
  | .lossesWithInter l _ => some l

/-- HificModel.forward: step counter update, compression forward pass,
evaluation short-circuit, loss composition, adversarial branch and final
bookkeeping, returning the result together with the mutated state. -/
def forward (M : Model) (st : State) (x : Tensor)
    (generator_train return_intermediates writeout : Bool) : FwdOut × State :=
  let st0 :=
    if generator_train = true then { st with step_counter := st.step_counter + 1 }
    else st
  let ih := compression_forward M x
  let intermediates := ih.1
  let hyperinfo := ih.2
  if M.model_mode = ModelMode.evaluation then
    (FwdOut.eval
      ((intermediates.reconstruction.emap (fun v => v * 255)).emap
        (fun v => max 0 (min v 255)))
      intermediates.q_bpp,
     st0)
  else
    let cl := compression_loss M writeout st0 intermediates hyperinfo
    let r :=
      if use_discriminator M = true then
        let g := GAN_loss M writeout cl.2 intermediates generator_train
        ((⟨cl.1 + M.beta * g.2.1, some g.1⟩ : Losses), g.2.2)
      else ((⟨cl.1, none⟩ : Losses), cl.2)
    let lossesDict := r.1
    let st2 := r.2
    let st3 :=
      if st2.step_counter % M.log_interval = 1 then
        store_loss M writeout st2 LKey.weighted_compression_loss lossesDict.compression
      else st2
    (if return_intermediates = true then FwdOut.lossesWithInter lossesDict intermediates
     else FwdOut.losses lossesDict,
     st3)

/-- A sequence of forward calls: each entry is the input tensor and the
generator_train, return_intermediates and writeout flags of one call; the
state is threaded through. -/
def runSeq (M : Model) (st : State) : List (Tensor × Bool × Bool × Bool) → State
  | [] => st
  | c :: cs => runSeq M (forward M st c.1 c.2.1 c.2.2.1 c.2.2.2).2 cs

/-- The configuration surface HificModel.__init__ reads. -/
structure Args where
  image_dims : List ℕ
  batch_size : ℕ
  latent_channels : ℕ
  use_channel_norm : Bool
  n_residual_blocks : ℕ
  discriminator_steps : ℤ
  log_interval : ℕ
  k_M : ℚ
  k_P : ℚ
  beta : ℚ

/-- Modelled from the spec: the attribute names of default_config.ModelModes
(default_config.py is not among the staged sources); hasattr(ModelModes,
s.upper()) succeeds exactly when s.toUpper is one of these. -/
def modelModesAttrs : List String := ["TRAINING", "VALIDATION", "EVALUATION"]

/-- Modelled from the spec: the attribute names of default_config.ModelTypes,
as above. -/
def modelTypesAttrs : List String := ["COMPRESSION", "COMPRESSION_GAN"]

/-- ASCII uppercase of one character (str.upper() on the configuration
strings, which are ASCII). -/
def upperChar (c : Char) : Char :=
  if 'a' ≤ c ∧ c ≤ 'z' then Char.ofNat (c.toNat - 32) else c

/-- ASCII uppercase of a string. -/
def upperStr (s : String) : String := ⟨s.data.map upperChar⟩

/-- The validation HificModel.__init__ performs, in source order: the
hasattr checks on model_type and model_mode raise ValueError on failure,
and the assert on discriminator_steps fires only when use_discriminator
was set (GAN type requested and mode not evaluation). -/
def initChecks (args : Args) (model_mode model_type : String) : Except String Unit :=
  if modelTypesAttrs.contains (upperStr model_type) = false then
    Except.error "Invalid model_type"
  else if modelModesAttrs.contains (upperStr model_mode) = false then
    Except.error "Invalid model_mode"
  else if model_type = "compression_gan" ∧ model_mode ≠ "evaluation" then
    if 0 < args.discriminator_steps then Except.ok ()
    else Except.error "Must specify nonzero training steps for D!"
  else Except.ok ()

/-! ### Concrete instances used by witnesses and counterexamples -/

/-- A 1-channel 1x1 image. -/
def img0 : Img := [[[1]]]

/-- A concrete model in training mode without GAN, with identity collaborators. -/
def M0 : Model where
  model_mode := ModelMode.training
  model_type := ModelType.compression
  log_interval := 5
  training := true
  k_M := 1
  k_P := 1
  beta := 1
  n_downsampling_layers := 1
  Encoder := id
  Generator := id
  Hyperprior := fun t _ => ⟨t, 1, 1, 1, 1, 0, 0⟩
  discScore := fun _ _ => 1 / 2
  discLogit := fun _ _ => 0
  perceptualFn := fun _ _ => 0
  weighted_rate_loss := fun n q _ => (n, q)
  ganLoss := fun _ _ => 1

/-- The empty starting state. -/
def st0 : State := ⟨0, fun _ => [], fun _ => []⟩

/-- A concrete batch-1 Intermediates record with realistic gradient sources. -/
def im1 : Intermediates :=
  ⟨⟨[img0], []⟩, ⟨[img0], [Src.encoder, Src.generator]⟩,
   ⟨[img0], [Src.hyperprior]⟩, 1, 1⟩

/-- A second 1-channel 1x1 image, distinct from img0. -/
def imgA : Img := [[[0]]]

/-- A concrete batch-2 Intermediates record whose two latents differ. -/
def im2 : Intermediates :=
  ⟨⟨[imgA, img0], []⟩, ⟨[imgA, img0], [Src.generator]⟩,
   ⟨[imgA, img0], []⟩, 1, 1⟩

/-- The concrete model in evaluation mode. -/
def Meval : Model := { M0 with model_mode := ModelMode.evaluation }

/-- The (2, 3, 64, 64) all-0.5 batch of the end-to-end scenario. -/
def xHalf : Tensor :=
  ⟨List.replicate 2 (List.replicate 3 (List.replicate 64 (List.replicate 64 (1 / 2)))),
   []⟩

/-- A concrete batch-1 input tensor. -/
def x1t : Tensor := ⟨[img0], []⟩

/-- The scalar stored under weighted_compression_loss by forward's final
bookkeeping: the full compression objective, with the weighted generator
loss added when the discriminator is configured. -/
def total_compression_value (M : Model) (step : ℕ) (im : Intermediates)
    (hy : HyperInfo) (gt : Bool) : ℚ :=
  (M.weighted_rate_loss im.n_bpp im.q_bpp step).1
    + M.k_M * distortion_loss im.reconstruction im.input_image
    + M.k_P * perceptual_loss_wrapper M im.reconstruction im.input_image
    + (if use_discriminator M = true then
        M.beta * M.ganLoss (discriminator_forward M im gt) GanMode.generator_loss
      else 0)

/-- The state after n generator-training forward calls of the concrete
training-mode model on the batch-1 input, starting from the empty state. -/
def c5state : ℕ → State
  | 0 => st0
  | n + 1 => (forward M0 (c5state n) x1t true false true).2

/-- A tensor has the uniform shape (N, C, H, W). -/
def HasShape (t : Tensor) (N C H W : ℕ) : Prop :=
  t.batch.length = N ∧ ∀ im ∈ t.batch, im.length = C ∧
    ∀ ch ∈ im, ch.length = H ∧ ∀ row ∈ ch, row.length = W

instance (t : Tensor) (N C H W : ℕ) : Decidable (HasShape t N C H W) := by
  unfold HasShape
  infer_instance

/-- The concrete model in validation mode, outside the training sub-mode. -/
def M7 : Model := { M0 with model_mode := ModelMode.validation, training := false }

/-- A (1, 1, 3, 1) tensor: H = 3 is not a multiple of the factor 2. -/
def x7 : Tensor := ⟨[[[[1], [2], [3]]]], []⟩

/-- A configuration with GAN type, zero discriminator steps. -/
def args8 : Args := ⟨[3, 256, 256], 8, 220, true, 9, 0, 100, 1, 1, 1⟩

/-! ### Step counter invariance of the bookkeeping -/

theorem store_loss_step_counter (M : Model) (wo : Bool) (st : State) (k : LKey)
    (v : ℚ) : (store_loss M wo st k v).step_counter = st.step_counter := by
  unfold store_loss
  split <;> split <;> rfl

theorem storeAll_step_counter (M : Model) (wo : Bool) (st : State)
    (ps : List (LKey × ℚ)) : (storeAll M wo st ps).step_counter = st.step_counter := by
  induction ps generalizing st with
  | nil => rfl
  | cons p ps ih => simp only [storeAll, ih, store_loss_step_counter]

theorem compression_loss_step_counter (M : Model) (wo : Bool) (st : State)
    (im : Intermediates) (hy : HyperInfo) :
    (compression_loss M wo st im hy).2.step_counter = st.step_counter := by
  unfold compression_loss
  dsimp only
  split
  · exact storeAll_step_counter ..
  · rfl

theorem GAN_loss_step_counter (M : Model) (wo : Bool) (st : State)
    (im : Intermediates) (gt : Bool) :
    (GAN_loss M wo st im gt).2.2.step_counter = st.step_counter := by
  unfold GAN_loss
  dsimp only
  split
  · exact storeAll_step_counter ..
  · rfl

theorem forward_step_counter (M : Model) (st : State) (x : Tensor)
    (gt ri wo : Bool) :
    (forward M st x gt ri wo).2.step_counter
      = st.step_counter + (if gt = true then 1 else 0) := by
  unfold forward
  dsimp only
  split
  · cases gt <;> simp
  · simp only [apply_ite Prod.snd, apply_ite State.step_counter,
      store_loss_step_counter, GAN_loss_step_counter,
      compression_loss_step_counter, ite_self]
    cases gt <;> simp

/-- C2: over every sequence of forward calls, in every model mode and whether
or not GAN is enabled, the step counter grows by exactly 1 on each call with
generator_train true and by 0 on each call with it false, and after the
sequence it equals its initial value plus the number of true-flag calls. -/
theorem spec_c2_step_counter (M : Model) (st : State) (x : Tensor)
    (gt ri wo : Bool) (calls : List (Tensor × Bool × Bool × Bool)) :
    (forward M st x gt ri wo).2.step_counter
        = st.step_counter + (if gt = true then 1 else 0) ∧
    (runSeq M st calls).step_counter
        = st.step_counter + (calls.filter (fun c => c.2.1)).length := by
  refine ⟨forward_step_counter .., ?_⟩
  induction calls generalizing st with
  | nil => rfl
  | cons c cs ih =>
    simp only [runSeq, ih, forward_step_counter, List.filter_cons]
    cases h : c.2.1 <;> simp <;> omega

/-! ### C1: the stop-gradient boundary of discriminator_forward -/

/-- C1: in the discriminator forward pass the quantized-latent context is
always detached; the reconstruction placed into the concatenated input is
detached exactly when generator_train is false and is the live
reconstruction unchanged when it is true; and on a discriminator-only call
(generator_train false) no gradient source of the generator reaches any
discriminator output, provided the real images carry none. -/
theorem spec_c1_detach_boundary (M : Model) (im : Intermediates) (gt : Bool) :
    (disc_context im).deps = [] ∧
    disc_D_in im gt
      = catB im.input_image
          (if gt = true then im.reconstruction else im.reconstruction.detach) ∧
    (gt = false → (disc_D_in im gt).deps = im.input_image.deps) ∧
    (gt = false → Src.generator ∉ im.input_image.deps →
      Src.generator ∉ (discriminator_forward M im gt).D_real.deps ∧
      Src.generator ∉ (discriminator_forward M im gt).D_gen.deps ∧
      Src.generator ∉ (discriminator_forward M im gt).D_real_logits.deps ∧
      Src.generator ∉ (discriminator_forward M im gt).D_gen_logits.deps) := by
  refine ⟨rfl, ?_, ?_, ?_⟩
  · cases gt <;> rfl
  · intro h
    subst h
    simp [disc_D_in, catB, disc_x_gen, Tensor.detach]
  · intro h hg
    subst h
    simp [discriminator_forward, chunk2, applyDisc, disc_D_in, catB, disc_x_gen,
      disc_context, repeatInterleave2, Tensor.detach, hg]

/-- Witness for C1 at a concrete batch-1 Intermediates record. -/
theorem spec_c1_detach_boundary_w :
    Src.generator ∉ im1.input_image.deps ∧
    Src.generator ∉ (discriminator_forward M0 im1 false).D_gen.deps :=
  ⟨by decide, ((spec_c1_detach_boundary M0 im1 false).2.2.2 rfl (by decide)).2.1⟩

/-! ### C4: batch layout of the discriminator invocation -/

theorem pairDup_length {α : Type} (l : List α) :
    (l.flatMap (fun s => [s, s])).length = 2 * l.length := by
  induction l with
  | nil => rfl
  | cons a l ih => simp [ih]; omega

theorem pairDup_getElem {α : Type} (l : List α) :
    ∀ i, (l.flatMap (fun s => [s, s]))[i]? = l[i / 2]? := by
  induction l with
  | nil => intro i; simp
  | cons a l ih =>
    intro i
    match i with
    | 0 => simp [List.flatMap_cons]
    | 1 =>
      have h1 : (1 : ℕ) / 2 = 0 := rfl
      simp [List.flatMap_cons, h1]
    | n + 2 =>
      have h2 : (n + 2) / 2 = n / 2 + 1 := Nat.add_div_right n (by norm_num)
      simp only [List.flatMap_cons, List.cons_append, List.nil_append,
        List.getElem?_cons_succ, h2]
      exact ih n

/-- Counterexample for C4 as stated: with batch size 2, the context row at
position 1 (the second real image, original sample 1) is the latent of
sample 0, not of sample 1 — torch.repeat_interleave duplicates the latents
interleaved while the images are concatenated in blocks. -/
theorem spec_c4_cex :
    ¬ (∀ i, i < (disc_D_in im2 true).batch.length →
        (disc_context im2).batch[i]?
          = im2.latents_quantized.batch[
              if i < im2.input_image.batch.length then i
              else i - im2.input_image.batch.length]?) :=
  fun h => absurd (h 1 (by decide)) (by decide)

/-- C4 as amended: the discriminator sees the single batch-axis concatenation
[real; reconstructed] of size 2N, conditioned on the interleaved duplication
of the quantized latents, whose batch size also equals 2N and whose row at
position i is the latent of sample i / 2 (not of the sample of the image at
position i); splitting the output of the one discriminator application in
half along the batch axis yields exactly the scores of the real images first
and of the reconstructed images second. -/
theorem spec_c4_batch (M : Model) (im : Intermediates) (gt : Bool)
    (hR : im.reconstruction.batch.length = im.input_image.batch.length)
    (hL : im.latents_quantized.batch.length = im.input_image.batch.length) :
    (disc_D_in im gt).batch = im.input_image.batch ++ im.reconstruction.batch ∧
    (disc_D_in im gt).batch.length = 2 * im.input_image.batch.length ∧
    (disc_context im).batch.length = 2 * im.input_image.batch.length ∧
    (∀ i, (disc_context im).batch[i]? = im.latents_quantized.batch[i / 2]?) ∧
    (discriminator_forward M im gt).D_real.batch
      = (im.input_image.batch.zip
          ((disc_context im).batch.take im.input_image.batch.length)).map
          (fun p => M.discScore p.1 p.2) ∧
    (discriminator_forward M im gt).D_gen.batch
      = (im.reconstruction.batch.zip
          ((disc_context im).batch.drop im.input_image.batch.length)).map
          (fun p => M.discScore p.1 p.2) := by
  have hdin : (disc_D_in im gt).batch
      = im.input_image.batch ++ im.reconstruction.batch := by
    cases gt <;> rfl
  have hctxlen : (disc_context im).batch.length
      = 2 * im.input_image.batch.length := by
    simp only [disc_context, repeatInterleave2, Tensor.detach, pairDup_length]
    rw [hL]
  have htake : ((disc_context im).batch.take im.input_image.batch.length).length
      = im.input_image.batch.length := by
    rw [List.length_take, hctxlen]
    omega
  have hzip : (disc_D_in im gt).batch.zip (disc_context im).batch
      = im.input_image.batch.zip
          ((disc_context im).batch.take im.input_image.batch.length)
        ++ im.reconstruction.batch.zip
          ((disc_context im).batch.drop im.input_image.batch.length) := by
    conv_lhs =>
      rw [hdin,
        ← List.take_append_drop im.input_image.batch.length (disc_context im).batch]
    exact List.zip_append (by rw [htake])
  have hziplen : ((disc_D_in im gt).batch.zip (disc_context im).batch).length
      = 2 * im.input_image.batch.length := by
    rw [List.length_zip, hdin, List.length_append, hR, hctxlen]
    omega
  have hhalf : (((disc_D_in im gt).batch.zip (disc_context im).batch).length + 1) / 2
      = im.input_image.batch.length := by
    rw [hziplen, Nat.mul_add_div (by norm_num)]
    omega
  have hfirstlen : ∀ f : Img → Img → ℚ,
      ((im.input_image.batch.zip
        ((disc_context im).batch.take im.input_image.batch.length)).map
        (fun p => f p.1 p.2)).length = im.input_image.batch.length := by
    intro f
    rw [List.length_map, List.length_zip, htake]
    omega
  refine ⟨hdin, ?_, hctxlen, ?_, ?_, ?_⟩
  · rw [hdin, List.length_append, hR]
    omega
  · intro i
    simp only [disc_context, repeatInterleave2, Tensor.detach]
    exact pairDup_getElem _ i
  · show ((applyDisc M.discScore (disc_D_in im gt) (disc_context im)).batch.take _) = _
    simp only [applyDisc, List.length_map, hhalf]
    simp only [hzip, List.map_append]
    exact List.take_left' (hfirstlen M.discScore)
  · show ((applyDisc M.discScore (disc_D_in im gt) (disc_context im)).batch.drop _) = _
    simp only [applyDisc, List.length_map, hhalf]
    simp only [hzip, List.map_append]
    exact List.drop_left' (hfirstlen M.discScore)

/-- Witness for C4's amended statement at the concrete batch-2 record. -/
theorem spec_c4_batch_w :
    im2.reconstruction.batch.length = im2.input_image.batch.length ∧
    im2.latents_quantized.batch.length = im2.input_image.batch.length ∧
    (disc_context im2).batch.length = 2 * im2.input_image.batch.length :=
  ⟨by decide, by decide,
   (spec_c4_batch M0 im2 true (by decide) (by decide)).2.2.1⟩

/-! ### C6 and C10: the evaluation short-circuit and its frame -/

/-- C6: in evaluation mode, forward skips all loss computation and returns
the pair of the reconstruction rescaled by 255 and clamped to [0, 255] and
the discrete bits-per-pixel estimate, and adds nothing to either loss
storage. -/
theorem spec_c6_eval_short_circuit (M : Model) (st : State) (x : Tensor)
    (gt ri wo : Bool) (h : M.model_mode = ModelMode.evaluation) :
    (forward M st x gt ri wo).1
      = FwdOut.eval
          (((compression_forward M x).1.reconstruction.emap (fun v => v * 255)).emap
            (fun v => max 0 (min v 255)))
          (compression_forward M x).1.q_bpp ∧
    (forward M st x gt ri wo).2.storage_train = st.storage_train ∧
    (forward M st x gt ri wo).2.storage_test = st.storage_test := by
  unfold forward
  dsimp only
  rw [if_pos h]
  refine ⟨rfl, ?_, ?_⟩ <;> (cases gt <;> rfl)

/-- Witness for C6 at the all-0.5 evaluation-mode scenario. -/
theorem spec_c6_eval_short_circuit_w :
    Meval.model_mode = ModelMode.evaluation ∧
    (forward Meval st0 xHalf false false true).2.storage_train = st0.storage_train :=
  ⟨rfl, (spec_c6_eval_short_circuit Meval st0 xHalf false false true rfl).2.1⟩

/-- C10: even in evaluation mode, a forward call with generator_train true
increments the step counter by 1, and mutates nothing else: both loss
storages are unchanged. -/
theorem spec_c10_eval_frame (M : Model) (st : State) (x : Tensor)
    (ri wo : Bool) (h : M.model_mode = ModelMode.evaluation) :
    (forward M st x true ri wo).2.step_counter = st.step_counter + 1 ∧
    (forward M st x true ri wo).2.storage_train = st.storage_train ∧
    (forward M st x true ri wo).2.storage_test = st.storage_test := by
  refine ⟨by simpa using forward_step_counter M st x true ri wo, ?_, ?_⟩ <;>
  · unfold forward
    dsimp only
    rw [if_pos h]
    rfl

/-- Witness for C10 at the concrete evaluation-mode model. -/
theorem spec_c10_eval_frame_w :
    Meval.model_mode = ModelMode.evaluation ∧
    (forward Meval st0 xHalf true false true).2.step_counter = st0.step_counter + 1 :=
  ⟨rfl, (spec_c10_eval_frame Meval st0 xHalf false true rfl).1⟩

/-! ### C3: composition of the returned losses -/

theorem compression_loss_fst (M : Model) (wo : Bool) (st : State)
    (im : Intermediates) (hy : HyperInfo) :
    (compression_loss M wo st im hy).1
      = (M.weighted_rate_loss im.n_bpp im.q_bpp st.step_counter).1
        + M.k_M * distortion_loss im.reconstruction im.input_image
        + M.k_P * perceptual_loss_wrapper M im.reconstruction im.input_image := rfl

theorem GAN_loss_D_fst (M : Model) (wo : Bool) (st : State) (im : Intermediates)
    (gt : Bool) :
    (GAN_loss M wo st im gt).1
      = M.ganLoss (discriminator_forward M im gt) GanMode.discriminator_loss := rfl

theorem GAN_loss_G_fst (M : Model) (wo : Bool) (st : State) (im : Intermediates)
    (gt : Bool) :
    (GAN_loss M wo st im gt).2.1
      = M.ganLoss (discriminator_forward M im gt) GanMode.generator_loss := rfl

/-- C3: in training and validation modes the loss mapping satisfies
compression = weighted_rate + k_M * distortion + k_P * perceptual, the
weighted rate taken from the external rate-weighting function at the step
counter current after this call's update; when the discriminator is
configured, beta * generator_loss is added into the compression entry and
the discriminator loss is returned separately under the disc key. -/
theorem spec_c3_loss_composition (M : Model) (st : State) (x : Tensor)
    (gt ri wo : Bool) (h : M.model_mode ≠ ModelMode.evaluation) :
    (forward M st x gt ri wo).1.lossesOf
      = some
          ⟨(M.weighted_rate_loss (compression_forward M x).1.n_bpp
              (compression_forward M x).1.q_bpp
              (if gt = true then st.step_counter + 1 else st.step_counter)).1
            + M.k_M * distortion_loss (compression_forward M x).1.reconstruction
                (compression_forward M x).1.input_image
            + M.k_P * perceptual_loss_wrapper M
                (compression_forward M x).1.reconstruction
                (compression_forward M x).1.input_image
            + (if use_discriminator M = true then
                M.beta * M.ganLoss
                  (discriminator_forward M (compression_forward M x).1 gt)
                  GanMode.generator_loss
              else 0),
           if use_discriminator M = true then
             some (M.ganLoss (discriminator_forward M (compression_forward M x).1 gt)
               GanMode.discriminator_loss)
           else none⟩ := by
  unfold forward
  dsimp only
  rw [if_neg h]
  cases ri <;> cases gt <;>
    simp only [Bool.false_eq_true, if_false, if_true, FwdOut.lossesOf] <;>
    split <;>
    rename_i hud <;>
    simp [hud, compression_loss_fst, GAN_loss_D_fst, GAN_loss_G_fst]

/-- Witness for C3: at the concrete GAN-free training model the forward loss
mapping evaluates to compression 1 (rate 1, zero distortion and perceptual)
with no disc entry. -/
theorem spec_c3_loss_composition_w :
    M0.model_mode ≠ ModelMode.evaluation ∧
    (forward M0 st0 x1t true false true).1.lossesOf = some ⟨1, none⟩ := by
  refine ⟨by decide, ?_⟩
  rw [spec_c3_loss_composition M0 st0 x1t true false true (by decide)]
  norm_num [M0, x1t, img0, st0, compression_forward, tDimH, tDimW,
    distortion_loss, perceptual_loss_wrapper, qmean, Tensor.emap, Img.emap,
    Tensor.flattenVals, use_discriminator]
  decide

/-! ### Content of the loss storages after one call -/

theorem store_loss_storage_train (M : Model) (wo : Bool) (st : State)
    (key : LKey) (v : ℚ) (k : LKey) :
    (store_loss M wo st key v).storage_train k
      = st.storage_train k
        ++ (if M.training = true ∧ wo = true ∧ k = key then [v] else []) := by
  unfold store_loss appendLoss
  cases h1 : M.training <;> cases wo <;> simp <;>
    (by_cases h3 : k = key <;> simp [h3])

theorem store_loss_storage_test (M : Model) (wo : Bool) (st : State)
    (key : LKey) (v : ℚ) (k : LKey) :
    (store_loss M wo st key v).storage_test k
      = st.storage_test k
        ++ (if M.training = false ∧ wo = true ∧ k = key then [v] else []) := by
  unfold store_loss appendLoss
  cases h1 : M.training <;> cases wo <;> simp <;>
    (by_cases h3 : k = key <;> simp [h3])

theorem storeAll_storage_train (M : Model) (wo : Bool) (st : State)
    (ps : List (LKey × ℚ)) (k : LKey) :
    (storeAll M wo st ps).storage_train k
      = st.storage_train k
        ++ (if M.training = true ∧ wo = true
            then ((ps.filter (fun p => p.1 == k)).map Prod.snd)
            else []) := by
  induction ps generalizing st with
  | nil => simp [storeAll]
  | cons p ps ih =>
    rw [storeAll, ih, store_loss_storage_train]
    by_cases h1 : M.training = true <;> by_cases h2 : wo = true <;>
      simp [h1, h2, List.filter_cons]
    by_cases h3 : k = p.1
    · simp [h3, beq_iff_eq]
    · have h4 : ¬ p.1 = k := fun hh => h3 hh.symm
      simp [h4, h3]

theorem storeAll_storage_test (M : Model) (wo : Bool) (st : State)
    (ps : List (LKey × ℚ)) (k : LKey) :
    (storeAll M wo st ps).storage_test k
      = st.storage_test k
        ++ (if M.training = false ∧ wo = true
            then ((ps.filter (fun p => p.1 == k)).map Prod.snd)
            else []) := by
  induction ps generalizing st with
  | nil => simp [storeAll]
  | cons p ps ih =>
    rw [storeAll, ih, store_loss_storage_test]
    by_cases h1 : M.training = false <;> by_cases h2 : wo = true <;>
      simp [h1, h2, List.filter_cons]
    by_cases h3 : k = p.1
    · simp [h3, beq_iff_eq]
    · have h4 : ¬ p.1 = k := fun hh => h3 hh.symm
      simp [h4, h3]

/-- Everything one non-evaluation forward call appends to the train storage:
nothing unless the post-update step counter hits the cadence, the module is
in training state and writeout is on; then exactly the diagnostic pairs of
the compression block, the GAN block when the discriminator is configured,
and the final total, in order, restricted to the key asked about. -/
theorem forward_storage_train_k (M : Model) (st : State) (x : Tensor)
    (gt ri wo : Bool) (h : M.model_mode ≠ ModelMode.evaluation) (k : LKey) :
    (forward M st x gt ri wo).2.storage_train k
      = st.storage_train k
        ++ (if (if gt = true then st.step_counter + 1 else st.step_counter)
                % M.log_interval = 1
              ∧ M.training = true ∧ wo = true
            then
              ((compression_diag M
                  (if gt = true then st.step_counter + 1 else st.step_counter)
                  (compression_forward M x).1 (compression_forward M x).2
                ++ ((if use_discriminator M = true then
                      gan_diag M (compression_forward M x).1 gt
                    else [])
                ++ [(LKey.weighted_compression_loss,
                     total_compression_value M
                       (if gt = true then st.step_counter + 1 else st.step_counter)
                       (compression_forward M x).1 (compression_forward M x).2
                       gt)])).filter
                (fun p => p.1 == k)).map Prod.snd
            else []) := by
  unfold forward
  dsimp only
  rw [if_neg h]
  simp only [compression_loss, GAN_loss]
  simp only [apply_ite State.step_counter, apply_ite Prod.snd,
    storeAll_step_counter, store_loss_step_counter, ite_self]
  by_cases hc : (if gt = true then st.step_counter + 1 else st.step_counter)
      % M.log_interval = 1
  · simp only [hc, if_true, true_and]
    simp only [store_loss_storage_train,
      apply_ite (fun s : State => s.storage_train k), storeAll_storage_train]
    by_cases htw : M.training = true <;> by_cases hwo : wo = true <;>
      by_cases hud : use_discriminator M = true <;>
      by_cases hk : k = LKey.weighted_compression_loss <;>
      simp [htw, hwo, hud, hk, List.filter_append, List.map_append,
        List.append_assoc, List.filter_cons, beq_iff_eq,
        total_compression_value] <;>
      exact fun hh => hk hh.symm
  · simp only [hc, if_false, false_and, List.append_nil]
    simp only [apply_ite (fun s : State => s.storage_train k), ite_self]

/-- The test-storage counterpart of forward_storage_train_k: the same pairs,
appended to the test storage exactly when the module is not in training
state. -/
theorem forward_storage_test_k (M : Model) (st : State) (x : Tensor)
    (gt ri wo : Bool) (h : M.model_mode ≠ ModelMode.evaluation) (k : LKey) :
    (forward M st x gt ri wo).2.storage_test k
      = st.storage_test k
        ++ (if (if gt = true then st.step_counter + 1 else st.step_counter)
                % M.log_interval = 1
              ∧ M.training = false ∧ wo = true
            then
              ((compression_diag M
                  (if gt = true then st.step_counter + 1 else st.step_counter)
                  (compression_forward M x).1 (compression_forward M x).2
                ++ ((if use_discriminator M = true then
                      gan_diag M (compression_forward M x).1 gt
                    else [])
                ++ [(LKey.weighted_compression_loss,
                     total_compression_value M
                       (if gt = true then st.step_counter + 1 else st.step_counter)
                       (compression_forward M x).1 (compression_forward M x).2
                       gt)])).filter
                (fun p => p.1 == k)).map Prod.snd
            else []) := by
  unfold forward
  dsimp only
  rw [if_neg h]
  simp only [compression_loss, GAN_loss]
  simp only [apply_ite State.step_counter, apply_ite Prod.snd,
    storeAll_step_counter, store_loss_step_counter, ite_self]
  by_cases hc : (if gt = true then st.step_counter + 1 else st.step_counter)
      % M.log_interval = 1
  · simp only [hc, if_true, true_and]
    simp only [store_loss_storage_test,
      apply_ite (fun s : State => s.storage_test k), storeAll_storage_test]
    by_cases htw : M.training = false <;> by_cases hwo : wo = true <;>
      by_cases hud : use_discriminator M = true <;>
      by_cases hk : k = LKey.weighted_compression_loss <;>
      simp [htw, hwo, hud, hk, List.filter_append, List.map_append,
        List.append_assoc, List.filter_cons, beq_iff_eq,
        total_compression_value] <;>
      exact fun hh => hk hh.symm
  · simp only [hc, if_false, false_and, List.append_nil]
    simp only [apply_ite (fun s : State => s.storage_test k), ite_self]

/-! ### C5: cadence and append-only recording -/

/-- Of all the diagnostics one non-evaluation forward call stores, exactly
one carries the distortion key, with the unweighted distortion as value. -/
theorem fwd_diag_filter_distortion (M : Model) (step : ℕ) (im : Intermediates)
    (hy : HyperInfo) (gt : Bool) (v : ℚ) (b : Bool) :
    ((compression_diag M step im hy
        ++ ((if b = true then gan_diag M im gt else [])
        ++ [(LKey.weighted_compression_loss, v)])).filter
        (fun p => p.1 == LKey.distortion)).map Prod.snd
      = [distortion_loss im.reconstruction im.input_image] := by
  cases b <;> rfl

/-- C5: a diagnostic scalar is appended exactly when the step counter
current after the call's update hits step % log_interval = 1 and writeout is
on; the append goes to the train storage in training state and to the test
storage otherwise, the other storage is untouched, existing entries are
never modified or removed, and over 12 generator-training calls with
log_interval 5 the distortion entry grows exactly at counter values 1, 6
and 11. -/
theorem spec_c5_recording (M : Model) (st : State) (x : Tensor) (gt ri wo : Bool)
    (h : M.model_mode ≠ ModelMode.evaluation) :
    (((if gt = true then st.step_counter + 1 else st.step_counter)
        % M.log_interval = 1 ∧ wo = true) →
      (M.training = true →
        (forward M st x gt ri wo).2.storage_train LKey.distortion
          = st.storage_train LKey.distortion
            ++ [distortion_loss (compression_forward M x).1.reconstruction
                  (compression_forward M x).1.input_image] ∧
        ∀ k2, (forward M st x gt ri wo).2.storage_test k2 = st.storage_test k2) ∧
      (M.training = false →
        (forward M st x gt ri wo).2.storage_test LKey.distortion
          = st.storage_test LKey.distortion
            ++ [distortion_loss (compression_forward M x).1.reconstruction
                  (compression_forward M x).1.input_image] ∧
        ∀ k2, (forward M st x gt ri wo).2.storage_train k2 = st.storage_train k2)) ∧
    (¬ ((if gt = true then st.step_counter + 1 else st.step_counter)
        % M.log_interval = 1 ∧ wo = true) →
      (∀ k2, (forward M st x gt ri wo).2.storage_train k2 = st.storage_train k2) ∧
      (∀ k2, (forward M st x gt ri wo).2.storage_test k2 = st.storage_test k2)) ∧
    (∀ k2, (∃ t, (forward M st x gt ri wo).2.storage_train k2
              = st.storage_train k2 ++ t) ∧
          (∃ t, (forward M st x gt ri wo).2.storage_test k2
              = st.storage_test k2 ++ t)) ∧
    (List.range 13).map
        (fun n => ((c5state n).storage_train LKey.distortion).length)
      = [0, 1, 1, 1, 1, 1, 2, 2, 2, 2, 2, 3, 3] := by
  refine ⟨?_, ?_, ?_, by decide⟩
  · rintro ⟨hcad, hwo⟩
    constructor
    · intro htr
      constructor
      · rw [forward_storage_train_k M st x gt ri wo h LKey.distortion,
          if_pos ⟨hcad, htr, hwo⟩, fwd_diag_filter_distortion]
      · intro k2
        rw [forward_storage_test_k M st x gt ri wo h k2]
        simp [htr]
    · intro htr
      constructor
      · rw [forward_storage_test_k M st x gt ri wo h LKey.distortion,
          if_pos ⟨hcad, htr, hwo⟩, fwd_diag_filter_distortion]
      · intro k2
        rw [forward_storage_train_k M st x gt ri wo h k2]
        simp [htr]
  · intro hno
    constructor <;> intro k2
    · rw [forward_storage_train_k M st x gt ri wo h k2,
        if_neg (fun hcc => hno ⟨hcc.1, hcc.2.2⟩), List.append_nil]
    · rw [forward_storage_test_k M st x gt ri wo h k2,
        if_neg (fun hcc => hno ⟨hcc.1, hcc.2.2⟩), List.append_nil]
  · intro k2
    exact ⟨⟨_, forward_storage_train_k M st x gt ri wo h k2⟩,
      ⟨_, forward_storage_test_k M st x gt ri wo h k2⟩⟩

/-- Witness for C5: the concrete model satisfies the mode hypothesis and the
12-call scenario records exactly at counters 1, 6 and 11. -/
theorem spec_c5_recording_w :
    M0.model_mode ≠ ModelMode.evaluation ∧
    (List.range 13).map
        (fun n => ((c5state n).storage_train LKey.distortion).length)
      = [0, 1, 1, 1, 1, 1, 2, 2, 2, 2, 2, 3, 3] :=
  ⟨by decide, (spec_c5_recording M0 st0 x1t true false true (by decide)).2.2.2⟩

/-! ### C7: padding and cropping around the validation-mode forward pass -/

theorem padTarget_le (n f : ℕ) (hf : 0 < f) : n ≤ padTarget n f := by
  unfold padTarget
  rw [if_neg hf.ne']
  have h1 := Nat.div_add_mod (n + f - 1) f
  have h2 := Nat.mod_lt (n + f - 1) hf
  omega

theorem padTarget_dvd (n f : ℕ) (hf : 0 < f) : f ∣ padTarget n f := by
  unfold padTarget
  rw [if_neg hf.ne']
  exact Dvd.intro _ rfl

theorem padRowTo_length (w : ℕ) (row : List ℚ) (h : row.length ≤ w) :
    (padRowTo w row).length = w := by
  simp [padRowTo]
  omega

theorem padChTo_shape (H2 W2 : ℕ) (ch : List (List ℚ)) (hH : ch.length ≤ H2)
    (hrows : ∀ row ∈ ch, row.length ≤ W2) :
    (padChTo H2 W2 ch).length = H2 ∧ ∀ row ∈ padChTo H2 W2 ch, row.length = W2 := by
  constructor
  · simp [padChTo]
    omega
  · intro row hr
    simp only [padChTo, List.mem_append] at hr
    rcases hr with hr | hr
    · obtain ⟨r0, hr0, hrow⟩ := List.mem_map.mp hr
      rw [← hrow]
      exact padRowTo_length W2 r0 (hrows r0 hr0)
    · rw [List.eq_of_mem_replicate hr]
      exact List.length_replicate ..

theorem pad_factor_shape (t : Tensor) (N C H W f : ℕ)
    (hs : HasShape t N C H W) :
    HasShape (pad_factor t H W f) N C (padTarget H f) (padTarget W f) := by
  obtain ⟨hN, hrest⟩ := hs
  refine ⟨by simpa [pad_factor] using hN, ?_⟩
  intro im him
  simp only [pad_factor, List.mem_map] at him
  obtain ⟨im0, him0, heq⟩ := him
  obtain ⟨hC0, hch0⟩ := hrest im0 him0
  subst heq
  refine ⟨by simpa using hC0, ?_⟩
  intro ch hch
  obtain ⟨ch0, hch0m, hcheq⟩ := List.mem_map.mp hch
  obtain ⟨hH0, hrow0⟩ := hch0 ch0 hch0m
  subst hcheq
  have hfle : ∀ n : ℕ, n ≤ padTarget n f := by
    intro n
    cases Nat.eq_zero_or_pos f with
    | inl h0 => subst h0; simp [padTarget]
    | inr hf => exact padTarget_le n f hf
  have hHle : ch0.length ≤ padTarget H f := by
    rw [hH0]
    exact hfle H
  have hWle : ∀ row ∈ ch0, row.length ≤ padTarget W f := by
    intro row hrm
    rw [hrow0 row hrm]
    exact hfle W
  exact padChTo_shape (padTarget H f) (padTarget W f) ch0 hHle hWle

theorem cropHW_shape (t : Tensor) (N C H2 W2 H W : ℕ) (hs : HasShape t N C H2 W2)
    (hH : H ≤ H2) (hW : W ≤ W2) : HasShape (cropHW t H W) N C H W := by
  obtain ⟨hN, hrest⟩ := hs
  refine ⟨by simpa [cropHW] using hN, ?_⟩
  intro im him
  simp only [cropHW, List.mem_map] at him
  obtain ⟨im0, him0, heq⟩ := him
  obtain ⟨hC0, hch0⟩ := hrest im0 him0
  subst heq
  refine ⟨by simpa using hC0, ?_⟩
  intro ch hch
  obtain ⟨ch0, hch0m, hcheq⟩ := List.mem_map.mp hch
  obtain ⟨hH0, hrow0⟩ := hch0 ch0 hch0m
  subst hcheq
  constructor
  · rw [List.length_map, List.length_take, hH0]
    omega
  · intro row hrm
    obtain ⟨r0, hr0, hreq⟩ := List.mem_map.mp hrm
    subst hreq
    rw [List.length_take, hrow0 r0 (List.mem_of_mem_take hr0)]
    omega

theorem dims_of_hasShape (t : Tensor) (N C H W : ℕ) (hs : HasShape t N C H W)
    (hN : 0 < N) (hC : 0 < C) (hH : 0 < H) :
    tDimC t = C ∧ tDimH t = H ∧ tDimW t = W := by
  obtain ⟨hlen, hrest⟩ := hs
  cases hb : t.batch with
  | nil => rw [hb] at hlen; simp at hlen; omega
  | cons im rest =>
    have him : im ∈ t.batch := by rw [hb]; exact List.mem_cons_self ..
    obtain ⟨hC0, hch⟩ := hrest im him
    cases hi : im with
    | nil => rw [hi] at hC0; simp at hC0; omega
    | cons ch chs =>
      have hchm : ch ∈ im := by rw [hi]; exact List.mem_cons_self ..
      obtain ⟨hH0, hrow⟩ := hch ch hchm
      cases hc : ch with
      | nil => rw [hc] at hH0; simp at hH0; omega
      | cons row rows =>
        have hrm : row ∈ ch := by rw [hc]; exact List.mem_cons_self ..
        have hW0 := hrow row hrm
        refine ⟨?_, ?_, ?_⟩
        · simp [tDimC, hb, hC0]
        · simp [tDimH, hb, hi, hH0]
        · simp [tDimW, hb, hi, hc, hW0]

/-- C7: the padding and cropping of the validation branch are right as the
spec intends, but the code never gets there: in exactly the configuration
the claim quantifies over (validation mode, module not in its training
sub-mode) the program evaluates the unbound bare name logger at model.py
line 116 and raises NameError before helpers.pad_factor runs, so
compression_forward never pads, never crops and returns no Intermediates
on that branch. -/
theorem spec_c7_logger_name_error (M : Model) (x : Tensor)
    (hmode : M.model_mode = ModelMode.validation) (htr : M.training = false) :
    compression_forward_run M x
      = Except.error "NameError: name 'logger' is not defined" := by
  unfold compression_forward_run
  rw [if_pos ⟨hmode, htr⟩]

/-- Witness for C7 at the concrete validation-mode model. -/
theorem spec_c7_logger_name_error_w :
    M7.model_mode = ModelMode.validation ∧ M7.training = false ∧
    compression_forward_run M7 x7
      = Except.error "NameError: name 'logger' is not defined" :=
  ⟨rfl, rfl, spec_c7_logger_name_error M7 x7 rfl rfl⟩

/-- The intended property behind C7, of the pad/crop data flow itself (the
statement the branch would satisfy were the logging line not a crash): the
input is padded spatially up to a multiple of 2 to the power of the
encoder's downsampling layers before encoding, the padding never shrinks a
dimension, and cropping afterwards is its exact inverse: provided the
collaborating encoder/generator round trip preserves shapes (their
documented contract), the reconstruction has exactly the original pre-pad
shape. (pad_factor itself is modelled from the spec: its source file is not
among the staged sources.) -/
theorem spec_c7_pad_crop (M : Model) (x : Tensor) (N C H W : ℕ)
    (hmode : M.model_mode = ModelMode.validation) (htr : M.training = false)
    (hx : HasShape x N C H W) (hN : 0 < N) (hC : 0 < C) (hH : 0 < H)
    (hcontract : ∀ t N2 C2 H2 W2, HasShape t N2 C2 H2 W2 →
      HasShape (M.Generator (M.Encoder t)) N2 C2 H2 W2) :
    (2 ^ M.n_downsampling_layers ∣ padTarget H (2 ^ M.n_downsampling_layers)) ∧
    (2 ^ M.n_downsampling_layers ∣ padTarget W (2 ^ M.n_downsampling_layers)) ∧
    H ≤ padTarget H (2 ^ M.n_downsampling_layers) ∧
    W ≤ padTarget W (2 ^ M.n_downsampling_layers) ∧
    HasShape (compression_forward M x).1.input_image N C
      (padTarget H (2 ^ M.n_downsampling_layers))
      (padTarget W (2 ^ M.n_downsampling_layers)) ∧
    HasShape (compression_forward M x).1.reconstruction N C H W := by
  have hf : 0 < 2 ^ M.n_downsampling_layers := Nat.pos_pow_of_pos _ (by norm_num)
  obtain ⟨hdC, hdH, hdW⟩ := dims_of_hasShape x N C H W hx hN hC hH
  have hpad : HasShape
      (pad_factor x H W (2 ^ M.n_downsampling_layers)) N C
      (padTarget H (2 ^ M.n_downsampling_layers))
      (padTarget W (2 ^ M.n_downsampling_layers)) :=
    pad_factor_shape x N C H W (2 ^ M.n_downsampling_layers) hx
  refine ⟨padTarget_dvd H _ hf, padTarget_dvd W _ hf, padTarget_le H _ hf,
    padTarget_le W _ hf, ?_, ?_⟩
  · unfold compression_forward
    dsimp only
    simp only [hmode, htr, and_self, if_true, hdH, hdW]
    exact hpad
  · unfold compression_forward
    dsimp only
    simp only [hmode, htr, and_self, if_true, hdH, hdW]
    exact cropHW_shape _ N C
      (padTarget H (2 ^ M.n_downsampling_layers))
      (padTarget W (2 ^ M.n_downsampling_layers)) H W
      (hcontract _ N C _ _ hpad) (padTarget_le H _ hf) (padTarget_le W _ hf)

/-- The intended property at a concrete instance: the identity round trip
preserves shapes, and the pad/crop data flow on a 3-row input keeps the
original shape. -/
theorem spec_c7_pad_crop_w :
    M7.model_mode = ModelMode.validation ∧ HasShape x7 1 1 3 1 ∧
    HasShape (compression_forward M7 x7).1.reconstruction 1 1 3 1 :=
  ⟨rfl, by decide,
   (spec_c7_pad_crop M7 x7 1 1 3 1 rfl rfl (by decide) (by decide) (by decide)
     (by decide) (fun t a b c d hh => hh)).2.2.2.2.2⟩

/-! ### C8: configuration validation at construction -/

/-- Counterexample for C8 as stated: requesting GAN mode together with
evaluation mode and non-positive discriminator_steps constructs without
raising: the discriminator_steps assert sits behind use_discriminator,
which is false in evaluation mode. -/
theorem spec_c8_cex :
    args8.discriminator_steps ≤ 0 ∧
    initChecks args8 "evaluation" "compression_gan" = Except.ok () :=
  ⟨by decide, rfl⟩

/-- C8 as amended: construction succeeds exactly when the uppercased
model_type and model_mode are recognized attribute names and, whenever GAN
is requested with a mode other than evaluation, discriminator_steps is
positive; in particular an unrecognized type or mode fails, GAN with
non-positive steps fails only outside evaluation mode, and every
configuration passing these checks constructs without raising. -/
theorem spec_c8_init_checks (args : Args) (mode ty : String) :
    initChecks args mode ty = Except.ok ()
      ↔ (modelTypesAttrs.contains (upperStr ty) = true ∧
         modelModesAttrs.contains (upperStr mode) = true ∧
         ((ty = "compression_gan" ∧ mode ≠ "evaluation") →
           0 < args.discriminator_steps)) := by
  unfold initChecks
  split_ifs with h1 h2 h3 h4 <;> simp_all

/-- Witness for C8's amended statement: a recognized GAN-free configuration
constructs successfully. -/
theorem spec_c8_init_checks_w :
    initChecks args8 "training" "compression" = Except.ok () :=
  (spec_c8_init_checks args8 "training" "compression").mpr
    ⟨by decide, by decide, fun hcon => absurd hcon.1 (by decide)⟩

/-! ### C9: the writeout flag only gates storage appends -/

theorem store_loss_wo_false (M : Model) (st : State) (k : LKey) (v : ℚ) :
    store_loss M false st k v = st := by
  unfold store_loss
  split <;> rfl

theorem storeAll_wo_false (M : Model) (st : State) (ps : List (LKey × ℚ)) :
    storeAll M false st ps = st := by
  induction ps generalizing st with
  | nil => rfl
  | cons p ps ih => simp only [storeAll, store_loss_wo_false, ih]

theorem compression_loss_snd_wo_false (M : Model) (st : State)
    (im : Intermediates) (hy : HyperInfo) :
    (compression_loss M false st im hy).2 = st := by
  unfold compression_loss
  dsimp only
  split
  · exact storeAll_wo_false ..
  · rfl

theorem GAN_loss_snd_wo_false (M : Model) (st : State) (im : Intermediates)
    (gt : Bool) : (GAN_loss M false st im gt).2.2 = st := by
  unfold GAN_loss
  dsimp only
  split
  · exact storeAll_wo_false ..
  · rfl

theorem forward_fst_writeout (M : Model) (st : State) (x : Tensor)
    (gt ri : Bool) (wo wo' : Bool) :
    (forward M st x gt ri wo).1 = (forward M st x gt ri wo').1 := by
  unfold forward
  dsimp only
  split
  · rfl
  · cases ri <;>
      simp only [Bool.false_eq_true, if_false, if_true] <;>
      split <;>
      simp only [compression_loss_fst, GAN_loss_D_fst, GAN_loss_G_fst]

theorem forward_wo_false_storage (M : Model) (st : State) (x : Tensor)
    (gt ri : Bool) :
    (forward M st x gt ri false).2.storage_train = st.storage_train ∧
    (forward M st x gt ri false).2.storage_test = st.storage_test := by
  unfold forward
  dsimp only
  split
  · constructor <;> (cases gt <;> rfl)
  · simp only [apply_ite Prod.snd, compression_loss_snd_wo_false,
      GAN_loss_snd_wo_false, store_loss_wo_false, ite_self]
    constructor <;> (cases gt <;> rfl)

/-- C9: the losses (and intermediates, when requested) forward returns are
the same whether or not the caller opts in to recording; with writeout false
both loss storages are left exactly as they were, so the flag's only effect
is whether diagnostics are appended. -/
theorem spec_c9_writeout_independent (M : Model) (st : State) (x : Tensor)
    (gt ri : Bool) :
    (forward M st x gt ri true).1 = (forward M st x gt ri false).1 ∧
    (forward M st x gt ri true).2.step_counter
      = (forward M st x gt ri false).2.step_counter ∧
    (forward M st x gt ri false).2.storage_train = st.storage_train ∧
    (forward M st x gt ri false).2.storage_test = st.storage_test :=
  ⟨forward_fst_writeout M st x gt ri true false,
   by simp only [forward_step_counter],
   (forward_wo_false_storage M st x gt ri).1,
   (forward_wo_false_storage M st x gt ri).2⟩

end Hific
